import Mathlib

/-!
Verification of the resilient parallel scrape orchestration engine in
`extract_profiles.py`: chunk partitioning (`split_links_into_chunks`), the
per-link retry/recovery loop of `process_batch_chunk`, the timeout-guarded
fetch (`extract_profile_info_with_timeout`), the JSON field projection
(`extract_profile_info_from_json`), and the dispatcher's collection and
reordering logic in `main`.

Python values are embedded shallowly: JSON documents as an inductive `Json`,
Python dicts as insertion-ordered association lists, Python exceptions as an
`Except` layer (`KeyError` vs `TypeError`), and the external browsing session
as oracles describing the outcome of each attempt.
-/

namespace ExtractProfiles

/-- A JSON value, the result of `json.loads`.  Numbers are modelled as
integers; no property below depends on numeric formatting. -/
inductive Json where
  | null
  | bool (b : Bool)
  | num (n : Int)
  | str (s : String)
  | arr (elems : List Json)
  | obj (fields : List (String × Json))
deriving Repr

/-- The Python exceptions relevant to the field projection: `d[k]` raises
`KeyError` when `d` is a dict without key `k`, and `TypeError` when `d` is
not a dict at all.  Only `KeyError` is caught by the projection. -/
inductive PyErr where
  | keyError
  | typeError
deriving Repr, DecidableEq

/-- A Python dict with string keys, as an insertion-ordered association
list (CPython dicts preserve insertion order). -/
abbrev PyDict := List (String × Json)

/-- Python subscription `j[k]`: a value on a dict key, `KeyError` on a
missing dict key, `TypeError` on any non-dict. -/
def Json.getItem : Json → String → Except PyErr Json
  | .obj fields, k =>
    match fields.lookup k with
    | some v => .ok v
    | none => .error .keyError
  | _, _ => .error .typeError

/-- Python dict assignment `d[k] = v`: overwrite in place when the key is
present, append otherwise. -/
def dictSet (d : PyDict) (k : String) (v : Json) : PyDict :=
  if d.any (fun p => p.1 == k) then
    d.map (fun p => if p.1 == k then (k, v) else p)
  else
    d ++ [(k, v)]

mutual

/-- Python `str()` of a JSON value, as interpolated by the address
f-string in `extract_profile_info_from_json`. -/
def pyStr : Json → String
  | .null => "None"
  | .bool true => "True"
  | .bool false => "False"
  | .num n => toString n
  | .str s => s
  | .arr elems => "[" ++ String.intercalate ", " (pyReprList elems) ++ "]"
  | .obj fields => "\x7b" ++ String.intercalate ", " (pyReprFields fields) ++ "\x7d"

/-- Python `repr()` of a JSON value (how containers render their elements). -/
def pyRepr : Json → String
  | .null => "None"
  | .bool true => "True"
  | .bool false => "False"
  | .num n => toString n
  | .str s => "\x27" ++ s ++ "\x27"
  | .arr elems => "[" ++ String.intercalate ", " (pyReprList elems) ++ "]"
  | .obj fields => "\x7b" ++ String.intercalate ", " (pyReprFields fields) ++ "\x7d"

/-- `repr()` of each element of a JSON array. -/
def pyReprList : List Json → List String
  | [] => []
  | x :: xs => pyRepr x :: pyReprList xs

/-- `repr()` of each key-value entry of a JSON object. -/
def pyReprFields : List (String × Json) → List String
  | [] => []
  | (k, v) :: kvs => ("\x27" ++ k ++ "\x27: " ++ pyRepr v) :: pyReprFields kvs

end

/-- The path `json_data["props"]["pageProps"]["displayUser"]` shared by all
eight field lookups. -/
def displayUser (json_data : Json) : Except PyErr Json :=
  json_data.getItem "props" >>= (·.getItem "pageProps") >>= (·.getItem "displayUser")

/-- Lookup for the `Name` field. -/
def namePath (json_data : Json) : Except PyErr Json :=
  displayUser json_data >>= (·.getItem "name")

/-- Lookup for the `Personal Phone` field. -/
def personalPhonePath (json_data : Json) : Except PyErr Json :=
  displayUser json_data >>= (·.getItem "phoneNumbers") >>= (·.getItem "cell")

/-- Lookup for the `Business Phone` field. -/
def businessPhonePath (json_data : Json) : Except PyErr Json :=
  displayUser json_data >>= (·.getItem "phoneNumbers") >>= (·.getItem "business")

/-- Lookup for the `Email` field. -/
def emailPath (json_data : Json) : Except PyErr Json :=
  displayUser json_data >>= (·.getItem "email")

/-- Lookup and formatting for the `Address` field: the four address parts
are read from `businessAddress` and interpolated into one string; a
`KeyError` from any of the four aborts the whole field. -/
def addressPath (json_data : Json) : Except PyErr Json := do
  let business_address ← displayUser json_data >>= (·.getItem "businessAddress")
  let a1 ← business_address.getItem "address1"
  let city ← business_address.getItem "city"
  let state ← business_address.getItem "state"
  let postal ← business_address.getItem "postalCode"
  pure (.str (pyStr a1 ++ ", " ++ pyStr city ++ ", " ++ pyStr state ++ " " ++ pyStr postal))

/-- Lookup for the `Business Name` field. -/
def businessNamePath (json_data : Json) : Except PyErr Json :=
  displayUser json_data >>= (·.getItem "businessName")

/-- Lookup for the `Ratings Count` field. -/
def ratingsCountPath (json_data : Json) : Except PyErr Json :=
  displayUser json_data >>= (·.getItem "ratings") >>= (·.getItem "count")

/-- Lookup for the `Ratings Average` field. -/
def ratingsAveragePath (json_data : Json) : Except PyErr Json :=
  displayUser json_data >>= (·.getItem "ratings") >>= (·.getItem "average")

/-- One `try: profile_info[k] = <lookup> except KeyError: profile_info[k] = None`
block: a successful lookup stores its value, a `KeyError` stores `None`, and
any other exception propagates. -/
def setFieldCatchKeyError (d : PyDict) (k : String) (lookup : Except PyErr Json) :
    Except PyErr PyDict :=
  match lookup with
  | .ok v => .ok (dictSet d k v)
  | .error .keyError => .ok (dictSet d k .null)
  | .error e => .error e

/-- `extract_profile_info_from_json`: project the eight named fields out of
the parsed `__NEXT_DATA__` document, each guarded by its own
`except KeyError` handler. -/
def extract_profile_info_from_json (json_data : Json) : Except PyErr PyDict := do
  let d ← setFieldCatchKeyError [] "Name" (namePath json_data)
  let d ← setFieldCatchKeyError d "Personal Phone" (personalPhonePath json_data)
  let d ← setFieldCatchKeyError d "Business Phone" (businessPhonePath json_data)
  let d ← setFieldCatchKeyError d "Email" (emailPath json_data)
  let d ← setFieldCatchKeyError d "Address" (addressPath json_data)
  let d ← setFieldCatchKeyError d "Business Name" (businessNamePath json_data)
  let d ← setFieldCatchKeyError d "Ratings Count" (ratingsCountPath json_data)
  let d ← setFieldCatchKeyError d "Ratings Average" (ratingsAveragePath json_data)
  pure d

/-- The value stored for one field: the looked-up value on success,
`None` when the lookup raised `KeyError`. -/
def fieldValue (lookup : Except PyErr Json) : Json :=
  match lookup with
  | .ok v => v
  | .error _ => .null

/-! ## The timeout-guarded fetch (`extract_profile_info_with_timeout`)

The page fetched by the worker thread is opaque apart from the presence and
content of its `__NEXT_DATA__` script tag; `json.loads` of that content is an
oracle `parse`.  A navigation/read failure inside the worker thread is
`Except.error ()`. -/

/-- A fetched page, reduced to the datum the extraction reads: the string
content of the `__NEXT_DATA__` script tag when that tag is present. -/
structure Page where
  nextData : Option String

/-- The body of `extraction_worker`: open the page, find the script tag,
parse it and project the fields.  Every failure path enqueues the empty
dict: a navigation exception, a missing script tag, a `json.loads` failure,
and a `TypeError` escaping the projection are all caught (the enclosing
`except Exception` puts `\x7b\x7d`). -/
def extraction_worker (parse : String → Option Json) (nav : Except Unit Page) : PyDict :=
  match nav with
  | .error _ => []
  | .ok page =>
    match page.nextData with
    | none => []
    | some s =>
      match parse s with
      | none => []
      | some json_data =>
        match extract_profile_info_from_json json_data with
        | .ok profile_info => profile_info
        | .error _ => []

/-- `extract_profile_info_with_timeout`: the caller blocks on
`result_queue.get(timeout=timeout_seconds)`.  `arrivedInTime` records
whether the worker thread's single enqueued item arrived within the budget;
if not, the `queue.Empty` handler returns the empty dict (the diagnostic
screenshot is best-effort and its own failure is caught). -/
def extract_profile_info_with_timeout (arrivedInTime : Bool)
    (parse : String → Option Json) (nav : Except Unit Page) : PyDict :=
  if arrivedInTime then extraction_worker parse nav else []

/-! ## The per-link retry loop of `process_batch_chunk`

The external session is an oracle: `attempts j` is the outcome of the
`(j+1)`-st call to `extract_profile_info` for this link (a returned dict, or
a raised exception), and `refreshOk j` tells whether the `(j+1)`-st
driver-refresh attempt for this link succeeds or itself raises. -/

/-- Outcome of one `extract_profile_info` call: a returned record
(possibly empty) or a raised exception. -/
inductive AttemptOutcome where
  | res (r : PyDict)
  | exn
deriving Repr

/-- What the `while retry_count < MAX_RETRIES_PER_LINK` loop produced for
one link: the final `profile_info`, the number of driver-refresh events
attempted, and the number of `extract_profile_info` calls made. -/
structure LinkAttemptStats where
  profile_info : PyDict
  refreshEvents : Nat
  attemptsMade : Nat
deriving Repr

/-- `MAX_RETRIES_PER_LINK = 3` in the configuration block. -/
def MAX_RETRIES_PER_LINK : Nat := 3

/-- The retry loop.  `fuel` is an upper bound on the remaining iterations
(the loop runs at most `MAX_RETRIES_PER_LINK` times since `retry_count`
grows by one on every non-breaking iteration); `processLink` supplies
`fuel = MAX_RETRIES_PER_LINK`, making the fuel-exhaustion arm unreachable.
Mirrors lines 164-205 of the source:
* a truthy (non-empty) result breaks out of the loop;
* an empty result advances `retry_count` and, while attempts remain,
  refreshes the driver — a refresh failure breaks out of the loop;
* a raised exception advances `retry_count` and behaves the same way,
  except `profile_info` keeps its previous value. -/
def processLinkLoop (attempts : Nat → AttemptOutcome) (refreshOk : Nat → Bool) :
    Nat → Nat → PyDict → Nat → Nat → LinkAttemptStats
  | 0, _, profile_info, refreshes, made => ⟨profile_info, refreshes, made⟩
  | fuel + 1, retry_count, profile_info, refreshes, made =>
    if retry_count < MAX_RETRIES_PER_LINK then
      match attempts retry_count with
      | .res r =>
        if r.isEmpty then
          if retry_count + 1 < MAX_RETRIES_PER_LINK then
            if refreshOk refreshes then
              processLinkLoop attempts refreshOk fuel (retry_count + 1) r (refreshes + 1) (made + 1)
            else ⟨r, refreshes + 1, made + 1⟩
          else ⟨r, refreshes, made + 1⟩
        else ⟨r, refreshes, made + 1⟩
      | .exn =>
        if retry_count + 1 < MAX_RETRIES_PER_LINK then
          if refreshOk refreshes then
            processLinkLoop attempts refreshOk fuel (retry_count + 1) profile_info (refreshes + 1) (made + 1)
          else ⟨profile_info, refreshes + 1, made + 1⟩
        else ⟨profile_info, refreshes, made + 1⟩
    else ⟨profile_info, refreshes, made⟩

/-- One link's retry protocol, started with `retry_count = 0` and
`profile_info = \x7b\x7d`. -/
def processLink (attempts : Nat → AttemptOutcome) (refreshOk : Nat → Bool) : LinkAttemptStats :=
  processLinkLoop attempts refreshOk MAX_RETRIES_PER_LINK 0 [] 0 0

/-- One entry of the chunk's result list:
`\x7b"profile_link": link, "profile_data": profile_info\x7d`. -/
structure LinkResult where
  profile_link : String
  profile_data : PyDict
deriving Repr

/-- The session behaviour a chunk's worker observes, per link index `i` of
the chunk: the attempt and refresh oracles for that link, and `fatal i`,
true when a session-level error outside the per-link handlers (SB context
setup/teardown, the inter-link sleep) is raised while starting link `i` —
the outer `except` then returns the results accumulated so far. -/
structure ChunkScript where
  attempts : Nat → Nat → AttemptOutcome
  refreshOk : Nat → Nat → Bool
  fatal : Nat → Bool

/-- The `for i, link in enumerate(chunk_links, 1)` loop: one
`LinkResult` is appended per link processed; a fatal session error aborts
the loop and the accumulated list is returned. -/
def processChunkLinks (s : ChunkScript) : Nat → List String → List LinkResult
  | _, [] => []
  | i, link :: rest =>
    if s.fatal i then []
    else ⟨link, (processLink (s.attempts i) (s.refreshOk i)).profile_info⟩ ::
      processChunkLinks s (i + 1) rest

/-- `process_batch_chunk`: process the chunk's links in order with one
dedicated session. -/
def process_batch_chunk (s : ChunkScript) (chunk_links : List String) : List LinkResult :=
  processChunkLinks s 0 chunk_links

/-! ## `split_links_into_chunks` -/

/-- `split_links_into_chunks`: chunk `i` is the slice
`batch_links[i*chunk_size : (i+1)*chunk_size]` with `chunk_size` the
integer quotient, except the last chunk which extends to the end of the
list. -/
def split_links_into_chunks (batch_links : List String) (num_chunks : Nat) :
    List (List String) :=
  let chunk_size := batch_links.length / num_chunks
  (List.range num_chunks).map (fun i =>
    let start := i * chunk_size
    let stop := if i == num_chunks - 1 then batch_links.length else (i + 1) * chunk_size
    (batch_links.drop start).take (stop - start))

/-! ## The dispatcher (`main`): collection and reordering -/

/-- How one chunk's future behaved at collection time: its result list was
retrieved within the 30-second grace period, or `future.result` raised
`TimeoutError`, or it raised some other exception.  The latter two arms are
caught by the collection loop and contribute nothing. -/
inductive ChunkCollection where
  | collected (results : List LinkResult)
  | timedOut
  | raised

/-- The `for future in as_completed(...)` loop, over the futures in
completion order: successfully retrieved chunk results are appended to
`all_results`; a timeout or error is logged and skipped. -/
def collectChunks : List ChunkCollection → List LinkResult
  | [] => []
  | .collected rs :: rest => rs ++ collectChunks rest
  | .timedOut :: rest => collectChunks rest
  | .raised :: rest => collectChunks rest

/-- The sort key `batch_links.index(x["profile_link"])`. -/
def sortKey (batch_links : List String) (r : LinkResult) : Nat :=
  batch_links.indexOf r.profile_link

/-- `all_results.sort(key=lambda x: batch_links.index(x["profile_link"]))`
inside its `try`: Python's sort is stable, modelled by `insertionSort` on
non-strict key comparison.  When some result's link is absent from
`batch_links`, `index` raises `ValueError`, the surrounding `except` logs
it, and the list is left as collected. -/
def sortResultsByOriginal (batch_links : List String) (rs : List LinkResult) :
    List LinkResult :=
  if rs.all (fun r => batch_links.contains r.profile_link) then
    rs.insertionSort (fun a b => sortKey batch_links a ≤ sortKey batch_links b)
  else rs

/-- The tail of `main`: collect the chunk futures' outcomes in completion
order, then reorder by original link position. -/
def mainAssemble (batch_links : List String) (outcomes : List ChunkCollection) :
    List LinkResult :=
  sortResultsByOriginal batch_links (collectChunks outcomes)

/-- What one chunk outcome contributes to `all_results`: its result list if
it was collected, nothing if its retrieval timed out or raised. -/
def ChunkCollection.contrib : ChunkCollection → List LinkResult
  | .collected results => results
  | .timedOut => []
  | .raised => []

/-- The record produced when the document parses but every field lookup
misses: all eight fields present, all `None`. -/
def allNullProfile : PyDict :=
  [("Name", .null), ("Personal Phone", .null), ("Business Phone", .null),
   ("Email", .null), ("Address", .null), ("Business Name", .null),
   ("Ratings Count", .null), ("Ratings Average", .null)]

/-! ## Helper lemmas -/

/-- Inversion for `Except` bind. -/
theorem exceptBind_ok {α β : Type} {x : Except PyErr α} {f : α → Except PyErr β} {b : β}
    (h : x >>= f = .ok b) : ∃ a, x = .ok a ∧ f a = .ok b := by
  cases x with
  | ok a => exact ⟨a, rfl, h⟩
  | error e => simp [Bind.bind, Except.bind] at h

/-- A successful field-assignment block stores exactly `fieldValue` of its
lookup. -/
theorem setFieldCatchKeyError_ok {d d' : PyDict} {k : String} {lookup : Except PyErr Json}
    (h : setFieldCatchKeyError d k lookup = .ok d') :
    d' = dictSet d k (fieldValue lookup) := by
  cases lookup with
  | ok v => simpa [setFieldCatchKeyError, fieldValue] using h.symm
  | error e =>
    cases e with
    | keyError => simpa [setFieldCatchKeyError, fieldValue] using h.symm
    | typeError => simp [setFieldCatchKeyError] at h

/-- Joining `m` successive slices of width `c` is a prefix of width `m * c`. -/
theorem flatten_slices (l : List String) (c : Nat) :
    ∀ m : Nat, ((List.range m).map (fun i => (l.drop (i * c)).take c)).flatten = l.take (m * c) := by
  intro m
  induction m with
  | zero => simp
  | succ m ih =>
    rw [List.range_succ, List.map_append, List.flatten_append, ih, Nat.succ_mul, List.take_add]
    simp

/-- The chunks of `split_links_into_chunks` concatenate back to the input. -/
theorem split_chunks_flatten (batch_links : List String) (num_chunks : Nat)
    (hN : 1 ≤ num_chunks) :
    (split_links_into_chunks batch_links num_chunks).flatten = batch_links := by
  obtain ⟨m, rfl⟩ : ∃ m, num_chunks = m + 1 :=
    ⟨num_chunks - 1, (Nat.succ_pred_eq_of_pos hN).symm⟩
  simp only [split_links_into_chunks]
  rw [List.range_succ, List.map_append, List.flatten_append]
  have hcongr : ∀ i ∈ List.range m,
      (batch_links.drop (i * (batch_links.length / (m + 1)))).take
        ((if i == m + 1 - 1 then batch_links.length
          else (i + 1) * (batch_links.length / (m + 1))) - i * (batch_links.length / (m + 1)))
      = (batch_links.drop (i * (batch_links.length / (m + 1)))).take
          (batch_links.length / (m + 1)) := by
    intro i hi
    have hlt : i < m := List.mem_range.mp hi
    have hne : (i == m + 1 - 1) = false := beq_eq_false_iff_ne.mpr (by omega)
    rw [hne]
    simp only [Bool.false_eq_true, if_false]
    have hsm : (i + 1) * (batch_links.length / (m + 1))
        = i * (batch_links.length / (m + 1)) + batch_links.length / (m + 1) := by ring
    rw [hsm, Nat.add_sub_cancel_left]
  rw [List.map_congr_left hcongr, flatten_slices]
  simp only [List.map_cons, List.map_nil, List.flatten_cons, List.flatten_nil, List.append_nil,
    Nat.add_sub_cancel, beq_self_eq_true, if_true]
  rw [← List.length_drop (m * (batch_links.length / (m + 1))) batch_links, List.take_length,
    List.take_append_drop]

/-- Chunk sizes: every chunk but the last holds the integer quotient, the
last absorbs quotient plus remainder. -/
theorem split_chunks_lengths (batch_links : List String) (num_chunks : Nat)
    (hN : 1 ≤ num_chunks) :
    (split_links_into_chunks batch_links num_chunks).map List.length
      = List.replicate (num_chunks - 1) (batch_links.length / num_chunks)
        ++ [batch_links.length / num_chunks + batch_links.length % num_chunks] := by
  obtain ⟨m, rfl⟩ : ∃ m, num_chunks = m + 1 :=
    ⟨num_chunks - 1, (Nat.succ_pred_eq_of_pos hN).symm⟩
  have hdm : (m + 1) * (batch_links.length / (m + 1)) + batch_links.length % (m + 1)
      = batch_links.length := Nat.div_add_mod _ _
  have hsm : (m + 1) * (batch_links.length / (m + 1))
      = m * (batch_links.length / (m + 1)) + batch_links.length / (m + 1) := by ring
  simp only [split_links_into_chunks, Nat.add_sub_cancel]
  rw [List.range_succ, List.map_append, List.map_append]
  congr 1
  · rw [List.map_map]
    apply List.eq_replicate_iff.mpr
    refine ⟨by simp, ?_⟩
    intro b hb
    simp only [List.mem_map, List.mem_range, Function.comp] at hb
    obtain ⟨i, hi, hb⟩ := hb
    subst hb
    have hne : (i == m) = false := beq_eq_false_iff_ne.mpr (by omega)
    have him : (i + 1) * (batch_links.length / (m + 1))
        = i * (batch_links.length / (m + 1)) + batch_links.length / (m + 1) := by ring
    have hle : (i + 1) * (batch_links.length / (m + 1))
        ≤ (m + 1) * (batch_links.length / (m + 1)) :=
      Nat.mul_le_mul_right _ (by omega)
    have hfits : i * (batch_links.length / (m + 1)) + batch_links.length / (m + 1)
        ≤ batch_links.length := by
      calc i * (batch_links.length / (m + 1)) + batch_links.length / (m + 1)
          = (i + 1) * (batch_links.length / (m + 1)) := him.symm
        _ ≤ (m + 1) * (batch_links.length / (m + 1)) := hle
        _ ≤ batch_links.length := Nat.le.intro hdm
    rw [hne]
    simp only [Bool.false_eq_true, if_false, List.length_take, List.length_drop]
    rw [him, Nat.add_sub_cancel_left]
    exact Nat.min_eq_left (by omega)
  · simp only [List.map_cons, List.map_nil, beq_self_eq_true, if_true, List.length_take,
      List.length_drop, Nat.min_self]
    have : m * (batch_links.length / (m + 1)) + batch_links.length / (m + 1)
        + batch_links.length % (m + 1) = batch_links.length := by
      rw [← hsm]; exact hdm
    congr 1
    generalize hq : batch_links.length / (m + 1) = q at this ⊢
    generalize hr : batch_links.length % (m + 1) = r at this ⊢
    generalize hp : m * q = p at this ⊢
    omega

/-- When every attempt for a link fails (empty result or exception), the
loop's final `profile_info` is the empty record, whatever the refresh
oracle does. -/
theorem processLinkLoop_allFail (attempts : Nat → AttemptOutcome) (refreshOk : Nat → Bool)
    (hall : ∀ j, attempts j = .res [] ∨ attempts j = .exn) :
    ∀ (fuel rc refr made : Nat),
      (processLinkLoop attempts refreshOk fuel rc [] refr made).profile_info = [] := by
  intro fuel
  induction fuel with
  | zero => intro rc refr made; rfl
  | succ fuel ih =>
    intro rc refr made
    rw [processLinkLoop]
    by_cases h : rc < MAX_RETRIES_PER_LINK
    · simp only [h, if_true]
      rcases hall rc with ha | ha <;> rw [ha] <;>
        simp only [List.isEmpty_nil, if_true]
      · by_cases h2 : rc + 1 < MAX_RETRIES_PER_LINK
        · simp only [h2, if_true]
          cases hrf : refreshOk refr
          · simp
          · simp [ih]
        · simp [h2]
      · by_cases h2 : rc + 1 < MAX_RETRIES_PER_LINK
        · simp only [h2, if_true]
          cases hrf : refreshOk refr
          · simp
          · simp [ih]
        · simp [h2]
    · simp [h]

/-- Without a fatal session error the chunk loop emits the links
themselves, in order. -/
theorem processChunkLinks_map_link (s : ChunkScript) (hf : ∀ i, s.fatal i = false) :
    ∀ (links : List String) (k : Nat),
      (processChunkLinks s k links).map LinkResult.profile_link = links := by
  intro links
  induction links with
  | nil => intro k; rfl
  | cons x rest ih =>
    intro k
    rw [processChunkLinks, hf k]
    simp only [Bool.false_eq_true, if_false, List.map_cons, ih (k + 1)]

/-- Without a fatal session error, the chunk's `i`-th result pairs the
`i`-th link with that link's retry-protocol outcome. -/
theorem processChunkLinks_getElem (s : ChunkScript) (hf : ∀ i, s.fatal i = false) :
    ∀ (links : List String) (k i : Nat) (l : String), links[i]? = some l →
      (processChunkLinks s k links)[i]?
        = some ⟨l, (processLink (s.attempts (k + i)) (s.refreshOk (k + i))).profile_info⟩ := by
  intro links
  induction links with
  | nil => intro k i l h; simp at h
  | cons x rest ih =>
    intro k i l h
    rw [processChunkLinks, hf k]
    simp only [Bool.false_eq_true, if_false]
    cases i with
    | zero =>
      simp only [List.getElem?_cons_zero, Option.some.injEq] at h
      subst h
      simp
    | succ i =>
      simp only [List.getElem?_cons_succ] at h ⊢
      rw [show k + (i + 1) = k + 1 + i by omega]
      exact ih (k + 1) i l h

/-- Trace of the fail-fail-succeed scenario: two refresh events, three
attempts, the third attempt's record is kept. -/
theorem processLink_failTwiceThenSucceed (r : PyDict) (attempts : Nat → AttemptOutcome)
    (refreshOk : Nat → Bool) (hr : r.isEmpty = false) (h0 : attempts 0 = .res [])
    (h1 : attempts 1 = .res []) (h2 : attempts 2 = .res r)
    (f0 : refreshOk 0 = true) (f1 : refreshOk 1 = true) :
    processLink attempts refreshOk = ⟨r, 2, 3⟩ := by
  show processLinkLoop attempts refreshOk (2+1) 0 [] 0 0 = _
  rw [processLinkLoop, h0]
  simp only [MAX_RETRIES_PER_LINK, List.isEmpty_nil, if_true, f0]
  norm_num
  show processLinkLoop attempts refreshOk (1+1) 1 [] 1 1 = _
  rw [processLinkLoop, h1]
  simp only [MAX_RETRIES_PER_LINK, List.isEmpty_nil, if_true, f1]
  norm_num
  show processLinkLoop attempts refreshOk (0+1) 2 [] 2 2 = _
  rw [processLinkLoop, h2]
  simp only [MAX_RETRIES_PER_LINK, hr]
  norm_num

/-- The first of two chunks is the prefix of length `len / 2`. -/
theorem split_two_head (batch : List String) :
    (split_links_into_chunks batch 2).getD 0 [] = batch.take (batch.length / 2) := by
  have h2 : List.range 2 = [0, 1] := rfl
  simp only [split_links_into_chunks, h2]
  simp

/-- In a duplicate-free list, the positions of a prefix's elements are
`0, 1, …`. -/
theorem map_indexOf_take (l : List String) (hnd : l.Nodup) (c : Nat) (hc : c ≤ l.length) :
    (l.take c).map (fun a => l.indexOf a) = List.range c := by
  apply List.ext_getElem
  · simp [Nat.min_eq_left hc]
  · intro t h1 h2
    simp only [List.getElem_map, List.getElem_take, List.getElem_range]
    exact List.indexOf_getElem hnd t _

/-- The reordering step permutes the collected results (both its branches
do). -/
theorem sortResultsByOriginal_perm (batch : List String) (rs : List LinkResult) :
    (sortResultsByOriginal batch rs).Perm rs := by
  rw [sortResultsByOriginal]
  split
  · exact List.perm_insertionSort _ _
  · exact List.Perm.refl _

/-- Counting over the collection loop: each collected chunk contributes its
own count, failed chunks contribute nothing. -/
theorem collectChunks_countP (p : LinkResult → Bool) :
    ∀ outs : List ChunkCollection,
      (collectChunks outs).countP p = (outs.map (fun o => o.contrib.countP p)).sum := by
  intro outs
  induction outs with
  | nil => rfl
  | cons o rest ih =>
    cases o <;> simp [collectChunks, ChunkCollection.contrib, List.countP_append, ih]

/-- A fault-free chunk holds as many results for link `l` as the chunk has
occurrences of `l`. -/
theorem countP_chunk (s : ChunkScript) (hf : ∀ i, s.fatal i = false)
    (links : List String) (l : String) :
    (process_batch_chunk s links).countP (fun r => r.profile_link == l) = links.count l := by
  calc (process_batch_chunk s links).countP (fun r => r.profile_link == l)
      = ((process_batch_chunk s links).map LinkResult.profile_link).countP (· == l) := by
        rw [List.countP_map]; rfl
    _ = links.countP (· == l) := by
        rw [process_batch_chunk, processChunkLinks_map_link s hf links 0]
    _ = links.count l := (List.count_eq_countP l links).symm

/-- Sum over `range N` of a function vanishing away from `i`. -/
theorem sum_map_range_single (f : Nat → Nat) (N i : Nat) (hi : i < N)
    (h0 : ∀ j, j < N → j ≠ i → f j = 0) : ((List.range N).map f).sum = f i := by
  induction N with
  | zero => omega
  | succ N ih =>
    rw [List.range_succ, List.map_append, List.sum_append]
    simp only [List.map_cons, List.map_nil, List.sum_cons, List.sum_nil]
    by_cases h : i = N
    · subst h
      have hz : ((List.range i).map f).sum = 0 := by
        apply List.sum_eq_zero
        intro x hx
        simp only [List.mem_map, List.mem_range] at hx
        obtain ⟨j, hj, rfl⟩ := hx
        exact h0 j (by omega) (by omega)
      omega
    · have hiN : i < N := by omega
      rw [ih hiN (fun j hj hne => h0 j (by omega) hne)]
      have hfN : f N = 0 := h0 N (by omega) (by omega)
      omega

/-- For a duplicate-free batch the chunks are individually duplicate-free
and pairwise disjoint. -/
theorem chunks_disjoint (batch : List String) (num_chunks : Nat) (hN : 1 ≤ num_chunks)
    (hnd : batch.Nodup) :
    (∀ c ∈ split_links_into_chunks batch num_chunks, c.Nodup) ∧
    (split_links_into_chunks batch num_chunks).Pairwise List.Disjoint := by
  have hflat := split_chunks_flatten batch num_chunks hN
  have hndf : (split_links_into_chunks batch num_chunks).flatten.Nodup := by
    rw [hflat]; exact hnd
  exact List.nodup_flatten.mp hndf

/-! ## Claims -/

/-- C4: for every input link list and every number of chunks `N ≥ 1`,
concatenating the chunks returned by `split_links_into_chunks`, in order,
reproduces the original input list exactly (the partition is exhaustive
and non-overlapping). -/
theorem claim_C4 (batch_links : List String) (num_chunks : Nat) (hN : 1 ≤ num_chunks) :
    (split_links_into_chunks batch_links num_chunks).flatten = batch_links :=
  split_chunks_flatten batch_links num_chunks hN

/-- Witness for C4 at a concrete input: three links into two chunks. -/
theorem claim_C4_witness :
    (split_links_into_chunks ["a", "b", "c"] 2).flatten = ["a", "b", "c"] :=
  claim_C4 ["a", "b", "c"] 2 (by decide)

/-- Counterexample to C3: chunk sizes are not always within one element of
equal.  Eleven links into three chunks gives sizes `[3, 3, 5]`, and the
last chunk exceeds the first by two. -/
theorem claim_C3_counterexample :
    ¬ (∀ c1 ∈ split_links_into_chunks ["a", "b", "c", "d", "e", "f", "g", "h", "i", "j", "k"] 3,
        ∀ c2 ∈ split_links_into_chunks ["a", "b", "c", "d", "e", "f", "g", "h", "i", "j", "k"] 3,
          c2.length ≤ c1.length + 1) := by
  decide

/-- C3 as amended: for every input link list and every `N ≥ 1`, each chunk
except the last has exactly `⌊len/N⌋` links and the last chunk absorbs the
remainder, holding `⌊len/N⌋ + (len mod N)` links — which can exceed the
others by up to `N - 1`, so the sizes are within one of equal only when
`len mod N ≤ 1`. -/
theorem claim_C3_amended (batch_links : List String) (num_chunks : Nat)
    (hN : 1 ≤ num_chunks) :
    (split_links_into_chunks batch_links num_chunks).map List.length
      = List.replicate (num_chunks - 1) (batch_links.length / num_chunks)
        ++ [batch_links.length / num_chunks + batch_links.length % num_chunks] :=
  split_chunks_lengths batch_links num_chunks hN

/-- Witness for amended C3: the `[3, 3, 5]` sizes of the counterexample
input match the amended formula. -/
theorem claim_C3_amended_witness :
    (split_links_into_chunks ["a", "b", "c", "d", "e", "f", "g", "h", "i", "j", "k"] 3).map
      List.length = [3, 3, 5] := by
  have h := claim_C3_amended ["a", "b", "c", "d", "e", "f", "g", "h", "i", "j", "k"] 3 (by decide)
  exact h.trans (by decide)

/-- C7: for every parsed JSON document, a successfully returned record is
exactly the eight named fields in order, each field's value determined
solely by its own path lookup (`fieldValue` maps a missing-key lookup to
`None` and a found value to itself) — so a missing intermediate key on one
field's path nulls exactly that field, and the record is never partially
shaped. -/
theorem claim_C7 : ∀ (json_data : Json) (r : PyDict),
    extract_profile_info_from_json json_data = .ok r →
    r = [("Name", fieldValue (namePath json_data)),
         ("Personal Phone", fieldValue (personalPhonePath json_data)),
         ("Business Phone", fieldValue (businessPhonePath json_data)),
         ("Email", fieldValue (emailPath json_data)),
         ("Address", fieldValue (addressPath json_data)),
         ("Business Name", fieldValue (businessNamePath json_data)),
         ("Ratings Count", fieldValue (ratingsCountPath json_data)),
         ("Ratings Average", fieldValue (ratingsAveragePath json_data))] := by
  intro j r h
  unfold extract_profile_info_from_json at h
  obtain ⟨d1, h1, h⟩ := exceptBind_ok h
  obtain ⟨d2, h2, h⟩ := exceptBind_ok h
  obtain ⟨d3, h3, h⟩ := exceptBind_ok h
  obtain ⟨d4, h4, h⟩ := exceptBind_ok h
  obtain ⟨d5, h5, h⟩ := exceptBind_ok h
  obtain ⟨d6, h6, h⟩ := exceptBind_ok h
  obtain ⟨d7, h7, h⟩ := exceptBind_ok h
  obtain ⟨d8, h8, h⟩ := exceptBind_ok h
  have e1 := setFieldCatchKeyError_ok h1
  have e2 := setFieldCatchKeyError_ok h2
  have e3 := setFieldCatchKeyError_ok h3
  have e4 := setFieldCatchKeyError_ok h4
  have e5 := setFieldCatchKeyError_ok h5
  have e6 := setFieldCatchKeyError_ok h6
  have e7 := setFieldCatchKeyError_ok h7
  have e8 := setFieldCatchKeyError_ok h8
  have hr : d8 = r := by simpa [Pure.pure, Except.pure] using h
  subst e1 e2 e3 e4 e5 e6 e7 e8 hr
  rfl

/-- C2: without a fatal session error, a Worker emits exactly one
`LinkResult` per assigned link, in order; and a link whose every attempt
fails (empty record or exception, exhausting the `MAX_RETRIES_PER_LINK = 3`
budget) yields the empty record at its position while the remaining links
are still processed. -/
theorem claim_C2 (s : ChunkScript) (links : List String) (hf : ∀ i, s.fatal i = false) :
    (process_batch_chunk s links).map LinkResult.profile_link = links ∧
    ∀ i l, links[i]? = some l →
      (∀ j, s.attempts i j = .res [] ∨ s.attempts i j = .exn) →
      (process_batch_chunk s links)[i]? = some ⟨l, []⟩ := by
  constructor
  · exact processChunkLinks_map_link s hf links 0
  · intro i l hl hall
    have h := processChunkLinks_getElem s hf links 0 i l hl
    simp only [Nat.zero_add] at h
    rw [process_batch_chunk, h]
    have : (processLink (s.attempts i) (s.refreshOk i)).profile_info = [] :=
      processLinkLoop_allFail (s.attempts i) (s.refreshOk i) hall _ 0 0 0
    rw [this]

/-- Witness for C2: a two-link chunk whose session always returns the empty
record still yields one result per link, the first being the empty
record. -/
theorem claim_C2_witness :
    (process_batch_chunk ⟨fun _ _ => .res [], fun _ _ => true, fun _ => false⟩ ["a", "b"]).map
      LinkResult.profile_link = ["a", "b"] ∧
    (process_batch_chunk ⟨fun _ _ => .res [], fun _ _ => true, fun _ => false⟩ ["a", "b"])[0]?
      = some ⟨"a", []⟩ :=
  ⟨(claim_C2 _ _ (fun _ => rfl)).1,
   (claim_C2 _ _ (fun _ => rfl)).2 0 "a" rfl (fun _ => Or.inl rfl)⟩

/-- C5: when extraction for a link returns the empty record on exactly the
first two attempts and a non-empty record `r` on the third, with successful
refreshes, the link's `LinkResult` pairs it with `r`, exactly two
driver-refresh events occur, and all three attempts run. -/
theorem claim_C5 (s : ChunkScript) (links : List String) (hf : ∀ i, s.fatal i = false)
    (i : Nat) (l : String) (hl : links[i]? = some l) (r : PyDict) (hr : r.isEmpty = false)
    (h0 : s.attempts i 0 = .res []) (h1 : s.attempts i 1 = .res [])
    (h2 : s.attempts i 2 = .res r)
    (f0 : s.refreshOk i 0 = true) (f1 : s.refreshOk i 1 = true) :
    (process_batch_chunk s links)[i]? = some ⟨l, r⟩ ∧
    (processLink (s.attempts i) (s.refreshOk i)).refreshEvents = 2 ∧
    (processLink (s.attempts i) (s.refreshOk i)).attemptsMade = 3 := by
  have hp : processLink (s.attempts i) (s.refreshOk i) = ⟨r, 2, 3⟩ :=
    processLink_failTwiceThenSucceed r _ _ hr h0 h1 h2 f0 f1
  refine ⟨?_, by rw [hp], by rw [hp]⟩
  have h := processChunkLinks_getElem s hf links 0 i l hl
  simp only [Nat.zero_add] at h
  rw [process_batch_chunk, h, hp]

/-- Witness for C5 at a concrete script: the third attempt's record is
kept and two refresh events occur. -/
theorem claim_C5_witness :
    (process_batch_chunk
        ⟨fun _ j => if j < 2 then .res [] else .res [("Name", .str "x")],
         fun _ _ => true, fun _ => false⟩ ["a"])[0]?
      = some ⟨"a", [("Name", .str "x")]⟩ ∧
    (processLink
        ((⟨fun _ j => if j < 2 then .res [] else .res [("Name", .str "x")],
           fun _ _ => true, fun _ => false⟩ : ChunkScript).attempts 0)
        ((⟨fun _ j => if j < 2 then .res [] else .res [("Name", .str "x")],
           fun _ _ => true, fun _ => false⟩ : ChunkScript).refreshOk 0)).refreshEvents = 2 := by
  have h := claim_C5
    ⟨fun _ j => if j < 2 then .res [] else .res [("Name", .str "x")],
     fun _ _ => true, fun _ => false⟩ ["a"] (fun _ => rfl) 0 "a" rfl
    [("Name", .str "x")] rfl rfl rfl rfl rfl rfl
  exact ⟨h.1, h.2.1⟩

/-- Counterexample to C6: with a session whose first attempt returns the
empty record and whose driver refresh then raises, only one of the three
attempts runs — the refresh failure does not leave the remaining attempts
to run, it breaks out of the retry loop. -/
theorem claim_C6_counterexample :
    (processLink (fun _ => .res []) (fun _ => false)).attemptsMade = 1 ∧
    (processLink (fun _ => .res []) (fun _ => false)).attemptsMade ≠ MAX_RETRIES_PER_LINK := by
  decide

/-- C6 as amended: a failure of the destroy-and-recreate step itself is
caught and does not crash the Worker — the retry counter has been advanced
and the link is finalized with the empty record, one `LinkResult` still
appearing at its position while every assigned link still gets a result —
but the remaining attempts do not run: the Worker breaks out of the retry
loop after a single attempt. -/
theorem claim_C6_amended (s : ChunkScript) (links : List String) (hf : ∀ i, s.fatal i = false)
    (i : Nat) (l : String) (hl : links[i]? = some l)
    (h0 : s.attempts i 0 = .res [] ∨ s.attempts i 0 = .exn)
    (hr : s.refreshOk i 0 = false) :
    processLink (s.attempts i) (s.refreshOk i) = ⟨[], 1, 1⟩ ∧
    (process_batch_chunk s links)[i]? = some ⟨l, []⟩ ∧
    (process_batch_chunk s links).length = links.length := by
  have hp : processLink (s.attempts i) (s.refreshOk i) = ⟨[], 1, 1⟩ := by
    show processLinkLoop (s.attempts i) (s.refreshOk i) (2+1) 0 [] 0 0 = _
    rcases h0 with h0 | h0 <;> rw [processLinkLoop, h0] <;>
      simp [MAX_RETRIES_PER_LINK, hr]
  refine ⟨hp, ?_, ?_⟩
  · have h := processChunkLinks_getElem s hf links 0 i l hl
    simp only [Nat.zero_add] at h
    rw [process_batch_chunk, h, hp]
  · calc (process_batch_chunk s links).length
        = ((process_batch_chunk s links).map LinkResult.profile_link).length :=
          (List.length_map _ _).symm
      _ = links.length := by
          rw [process_batch_chunk, processChunkLinks_map_link s hf links 0]

/-- Witness for amended C6: first attempt empty, refresh fails — one
attempt, one refresh event, empty result, second link still processed. -/
theorem claim_C6_amended_witness :
    processLink
        ((⟨fun _ _ => .res [], fun _ _ => false, fun _ => false⟩ : ChunkScript).attempts 0)
        ((⟨fun _ _ => .res [], fun _ _ => false, fun _ => false⟩ : ChunkScript).refreshOk 0)
      = ⟨[], 1, 1⟩ ∧
    (process_batch_chunk ⟨fun _ _ => .res [], fun _ _ => false, fun _ => false⟩
        ["a", "b"]).length = 2 := by
  have h := claim_C6_amended ⟨fun _ _ => .res [], fun _ _ => false, fun _ => false⟩
    ["a", "b"] (fun _ => rfl) 0 "a" rfl (Or.inl rfl) rfl
  exact ⟨h.1, h.2.2⟩

/-- C8: when the worker thread's single enqueued item arrives within the
timeout budget, the guarded call returns exactly what the fetch-and-extract
produced (record or not-found); when the budget elapses first it returns
the empty record; and a raising fetch never surfaces to the caller — the
worker enqueues the empty record instead. -/
theorem claim_C8 (arrivedInTime : Bool) (parse : String → Option Json)
    (nav : Except Unit Page) :
    (arrivedInTime = true →
      extract_profile_info_with_timeout arrivedInTime parse nav = extraction_worker parse nav) ∧
    (arrivedInTime = false →
      extract_profile_info_with_timeout arrivedInTime parse nav = []) ∧
    extraction_worker parse (.error ()) = [] := by
  refine ⟨fun h => ?_, fun h => ?_, rfl⟩
  · subst h; rfl
  · subst h; rfl

/-- Witness for C8: an operation that never delivers within the budget
yields the empty record. -/
theorem claim_C8_witness :
    extract_profile_info_with_timeout false (fun _ => none) (Except.error ()) = [] :=
  (claim_C8 false (fun _ => none) (Except.error ())).2.1 rfl

/-- C10: when the document parses but all eight field lookups miss with
`KeyError`, the projection returns the non-empty all-null record; being
truthy, the Worker accepts it on the first attempt — one attempt, zero
refresh events — and it becomes the link's final result.  Only the
strictly empty record triggers the retry protocol. -/
theorem claim_C10 (json_data : Json)
    (hn : namePath json_data = .error .keyError)
    (hp : personalPhonePath json_data = .error .keyError)
    (hb : businessPhonePath json_data = .error .keyError)
    (he : emailPath json_data = .error .keyError)
    (ha : addressPath json_data = .error .keyError)
    (hbn : businessNamePath json_data = .error .keyError)
    (hrc : ratingsCountPath json_data = .error .keyError)
    (hra : ratingsAveragePath json_data = .error .keyError) :
    extract_profile_info_from_json json_data = .ok allNullProfile ∧
    allNullProfile.isEmpty = false ∧
    ∀ (attempts : Nat → AttemptOutcome) (refreshOk : Nat → Bool),
      attempts 0 = .res allNullProfile →
      processLink attempts refreshOk = ⟨allNullProfile, 0, 1⟩ := by
  refine ⟨?_, rfl, ?_⟩
  · unfold extract_profile_info_from_json
    rw [hn, hp, hb, he, ha, hbn, hrc, hra]
    rfl
  · intro attempts refreshOk h0
    show processLinkLoop attempts refreshOk (2+1) 0 [] 0 0 = _
    rw [processLinkLoop, h0]
    simp [MAX_RETRIES_PER_LINK, allNullProfile]

/-- Witness for C10 on the empty JSON object: the all-null record is
produced and accepted without any retry. -/
theorem claim_C10_witness :
    extract_profile_info_from_json (Json.obj []) = .ok allNullProfile ∧
    processLink (fun _ => .res allNullProfile) (fun _ => true) = ⟨allNullProfile, 0, 1⟩ :=
  ⟨(claim_C10 (Json.obj []) rfl rfl rfl rfl rfl rfl rfl rfl).1,
   (claim_C10 (Json.obj []) rfl rfl rfl rfl rfl rfl rfl rfl).2.2 _ _ rfl⟩

/-- Witness for C7 on the empty JSON object: every path misses, the
returned record holds all eight fields, all `None`. -/
theorem claim_C7_witness :
    allNullProfile
      = [("Name", fieldValue (namePath (Json.obj []))),
         ("Personal Phone", fieldValue (personalPhonePath (Json.obj []))),
         ("Business Phone", fieldValue (businessPhonePath (Json.obj []))),
         ("Email", fieldValue (emailPath (Json.obj []))),
         ("Address", fieldValue (addressPath (Json.obj []))),
         ("Business Name", fieldValue (businessNamePath (Json.obj []))),
         ("Ratings Count", fieldValue (ratingsCountPath (Json.obj []))),
         ("Ratings Average", fieldValue (ratingsAveragePath (Json.obj [])))] :=
  claim_C7 (Json.obj []) allNullProfile rfl

/-- C9: with a duplicate-free batch split into two chunks, when the first
chunk's Worker completes without fatal error and the second chunk's future
raises, the dispatcher's final artifact is exactly the first chunk's result
list — already in input order, since its links are the batch prefix — and
the second chunk's links are absent; the reordering step runs without
raising (every present link is found in the batch, and the exception paths
are caught). -/
theorem claim_C9 (batch : List String) (s : ChunkScript) (hnd : batch.Nodup)
    (hf : ∀ i, s.fatal i = false) :
    mainAssemble batch
      [.collected (process_batch_chunk s ((split_links_into_chunks batch 2).getD 0 [])),
       .raised]
      = process_batch_chunk s ((split_links_into_chunks batch 2).getD 0 []) ∧
    (process_batch_chunk s ((split_links_into_chunks batch 2).getD 0 [])).map
      LinkResult.profile_link = (split_links_into_chunks batch 2).getD 0 [] := by
  rw [split_two_head batch]
  have hmap : (process_batch_chunk s (batch.take (batch.length / 2))).map
      LinkResult.profile_link = batch.take (batch.length / 2) :=
    processChunkLinks_map_link s hf _ 0
  refine ⟨?_, hmap⟩
  rw [mainAssemble]
  have hcol : collectChunks
      [.collected (process_batch_chunk s (batch.take (batch.length / 2))), .raised]
      = process_batch_chunk s (batch.take (batch.length / 2)) := by
    simp [collectChunks]
  rw [hcol, sortResultsByOriginal]
  have hall : (process_batch_chunk s (batch.take (batch.length / 2))).all
      (fun r => batch.contains r.profile_link) = true := by
    rw [List.all_eq_true]
    intro r hr
    have hmem1 : r.profile_link ∈ batch.take (batch.length / 2) := by
      rw [← hmap]; exact List.mem_map_of_mem _ hr
    have hmem : r.profile_link ∈ batch := List.mem_of_mem_take hmem1
    exact List.elem_iff.mpr hmem
  rw [if_pos hall]
  apply List.Sorted.insertionSort_eq
  have hkeys : (process_batch_chunk s (batch.take (batch.length / 2))).map
      (fun r => sortKey batch r) = List.range (batch.length / 2) := by
    calc (process_batch_chunk s (batch.take (batch.length / 2))).map (fun r => sortKey batch r)
        = ((process_batch_chunk s (batch.take (batch.length / 2))).map
            LinkResult.profile_link).map (fun a => batch.indexOf a) := by
          rw [List.map_map]; rfl
      _ = (batch.take (batch.length / 2)).map (fun a => batch.indexOf a) := by rw [hmap]
      _ = List.range (batch.length / 2) :=
          map_indexOf_take batch hnd _ (Nat.div_le_self _ _)
  have hpair : List.Pairwise (· ≤ ·)
      ((process_batch_chunk s (batch.take (batch.length / 2))).map
        (fun r => sortKey batch r)) := by
    rw [hkeys]; exact List.pairwise_le_range _
  exact List.pairwise_map.mp hpair

/-- Witness for C9: two links, the second chunk raising — the artifact is
exactly the first chunk's single result. -/
theorem claim_C9_witness :
    mainAssemble ["a", "b"]
      [.collected (process_batch_chunk
          ⟨fun _ _ => .res [("Name", .null)], fun _ _ => true, fun _ => false⟩
          ((split_links_into_chunks ["a", "b"] 2).getD 0 [])),
       .raised]
      = process_batch_chunk
          ⟨fun _ _ => .res [("Name", .null)], fun _ _ => true, fun _ => false⟩
          ((split_links_into_chunks ["a", "b"] 2).getD 0 []) :=
  (claim_C9 ["a", "b"]
    ⟨fun _ _ => .res [("Name", .null)], fun _ _ => true, fun _ => false⟩
    (by decide) (fun _ => rfl)).1

/-- Counterexample to C1: a two-link batch split across two Workers where
the second chunk's result retrieval times out.  The final artifact holds no
result at all for link `"b"`, so it is not the case that every input link
gets exactly one `LinkResult`. -/
theorem claim_C1_counterexample :
    ¬ (∀ l ∈ (["a", "b"] : List String),
        ((mainAssemble ["a", "b"]
            [.collected (process_batch_chunk
                ⟨fun _ _ => .res [("Name", .null)], fun _ _ => true, fun _ => false⟩
                ((split_links_into_chunks ["a", "b"] 2).getD 0 [])),
             .timedOut]).countP (fun r => r.profile_link == l)) = 1) := by
  decide

/-- C1 as amended: for a duplicate-free batch split into `N ≥ 1` chunks
processed by fault-free Workers, whatever order the futures complete in,
the final artifact holds exactly one `LinkResult` for each link of every
chunk whose result list was collected, and zero for each link of a chunk
whose retrieval timed out or raised — so exactly one per input link only
when every chunk is collected, and gaps otherwise. -/
theorem claim_C1_amended (batch : List String) (num_chunks : Nat) (hN : 1 ≤ num_chunks)
    (hnd : batch.Nodup) (scripts : Nat → ChunkScript)
    (hf : ∀ j i, (scripts j).fatal i = false)
    (deliver : Nat → Bool) (order : List Nat) (hord : order.Perm (List.range num_chunks))
    (i : Nat) (hi : i < num_chunks) (l : String)
    (hl : l ∈ (split_links_into_chunks batch num_chunks).getD i []) :
    ((mainAssemble batch (order.map (fun j =>
        if deliver j then
          ChunkCollection.collected (process_batch_chunk (scripts j)
            ((split_links_into_chunks batch num_chunks).getD j []))
        else ChunkCollection.timedOut))).countP
      (fun r => r.profile_link == l))
    = if deliver i then 1 else 0 := by
  have hlen : (split_links_into_chunks batch num_chunks).length = num_chunks := by
    simp [split_links_into_chunks]
  have hgetD : ∀ (j : Nat) (hj : j < (split_links_into_chunks batch num_chunks).length),
      (split_links_into_chunks batch num_chunks).getD j []
      = (split_links_into_chunks batch num_chunks)[j] := by
    intro j hj
    rw [List.getD_eq_getElem?_getD, List.getElem?_eq_getElem hj]
    rfl
  obtain ⟨hcnd, hdisj⟩ := chunks_disjoint batch num_chunks hN hnd
  have hpw := List.pairwise_iff_getElem.mp hdisj
  have hcount : ∀ (j : Nat), j < num_chunks → j ≠ i →
      List.count l ((split_links_into_chunks batch num_chunks).getD j []) = 0 := by
    intro j hj hji
    rw [hgetD j (by omega)]
    rw [List.count_eq_zero]
    intro hmem
    rw [hgetD i (by omega)] at hl
    rcases Nat.lt_or_ge i j with hij | hij
    · exact hpw i j (by omega) (by omega) hij hl hmem
    · have hji' : j < i := by omega
      exact (hpw j i (by omega) (by omega) hji').symm hl hmem
  have hcount1 : List.count l ((split_links_into_chunks batch num_chunks).getD i []) = 1 := by
    rw [hgetD i (by omega)]
    rw [hgetD i (by omega)] at hl
    exact List.count_eq_one_of_mem (hcnd _ (List.getElem_mem _)) hl
  rw [mainAssemble, (sortResultsByOriginal_perm batch _).countP_eq, collectChunks_countP]
  have hperm2 := (hord.map (fun j =>
      if deliver j then
        ChunkCollection.collected (process_batch_chunk (scripts j)
          ((split_links_into_chunks batch num_chunks).getD j []))
      else ChunkCollection.timedOut)).map
    (fun o => o.contrib.countP (fun r => r.profile_link == l))
  rw [hperm2.sum_eq, List.map_map]
  have hFeq : ∀ j ∈ List.range num_chunks,
      ((fun o => o.contrib.countP (fun r => r.profile_link == l)) ∘ (fun j =>
        if deliver j then
          ChunkCollection.collected (process_batch_chunk (scripts j)
            ((split_links_into_chunks batch num_chunks).getD j []))
        else ChunkCollection.timedOut)) j
      = (fun j => if deliver j then
          List.count l ((split_links_into_chunks batch num_chunks).getD j []) else 0) j := by
    intro j hj
    simp only [Function.comp]
    cases hdj : deliver j <;>
      simp [ChunkCollection.contrib, countP_chunk (scripts j) (hf j)]
  rw [List.map_congr_left hFeq]
  rw [sum_map_range_single _ num_chunks i hi ?_]
  · cases hdi : deliver i
    · simp only [hdi, Bool.false_eq_true, if_false]
    · simp only [hdi, if_true]
      exact hcount1
  · intro j hj hji
    cases hdj : deliver j
    · simp only [hdj, Bool.false_eq_true, if_false]
    · simp only [hdj, if_true]
      exact hcount j hj hji

/-- Witness for amended C1: two links, two chunks, only chunk `0`
collected — link `"b"` of the undelivered chunk `1` gets zero results. -/
theorem claim_C1_amended_witness :
    ((mainAssemble ["a", "b"] (([0, 1] : List Nat).map (fun j =>
        if (fun j => j == 0) j then
          ChunkCollection.collected (process_batch_chunk
            ((fun _ => ⟨fun _ _ => .res [("Name", .null)], fun _ _ => true, fun _ => false⟩ :
                Nat → ChunkScript) j)
            ((split_links_into_chunks ["a", "b"] 2).getD j []))
        else ChunkCollection.timedOut))).countP
      (fun r => r.profile_link == "b")) = 0 :=
  claim_C1_amended ["a", "b"] 2 (by decide) (by decide)
    (fun _ => ⟨fun _ _ => .res [("Name", .null)], fun _ _ => true, fun _ => false⟩)
    (fun _ _ => rfl) (fun j => j == 0) [0, 1] (List.Perm.refl _) 1 (by decide) "b" (by decide)

end ExtractProfiles
